import Mathlib

/-!
Verification of the prof-viewer data-access pipeline: interval/tile data
model, `TileManager` tile selection, the deferred data-source wrapper stack
(sync wrapper, LRU cache, request counter), the search-state cache, and the
columnar-export schema inference (`FieldType.meet` and the DuckDB writer's
field discovery).

Rust `i64` timestamps are modelled by `Int` (no claim here depends on
64-bit wraparound), `u64` counters by `Nat`, and `f64` ratio arithmetic by
`ℚ` (exact on all inputs appearing in these claims).  Rust panics
(`unwrap`, `assert!`, `todo!`, `unreachable!`) are modelled by `Option` /
explicit outcome constructors.
-/

namespace ProfViewer

/-- Modelled from the spec: `timestamp.rs` is not part of the provided
sources.  Per §3, an `Interval` is `[start, stop)` over signed 64-bit
nanoseconds, with intersection, union, overlap, containment, and
`duration = stop − start` (possibly zero or negative after clamping). -/
structure Interval where
  start : Int
  stop : Int
deriving DecidableEq, Repr

def Interval.duration_ns (i : Interval) : Int := i.stop - i.start

def Interval.intersection (a b : Interval) : Interval :=
  ⟨max a.start b.start, min a.stop b.stop⟩

def Interval.union (a b : Interval) : Interval :=
  ⟨min a.start b.start, max a.stop b.stop⟩

/-- Half-open overlap test for `[start, stop)` intervals. -/
def Interval.overlaps (a b : Interval) : Prop :=
  a.start < b.stop ∧ b.start < a.stop

instance (a b : Interval) : Decidable (a.overlaps b) :=
  inferInstanceAs (Decidable (_ ∧ _))

def Interval.contains_interval (a b : Interval) : Prop :=
  a.start ≤ b.start ∧ b.stop ≤ a.stop

instance (a b : Interval) : Decidable (a.contains_interval b) :=
  inferInstanceAs (Decidable (_ ∧ _))

/-- Modelled from the spec: `data.rs` is not part of the provided sources.
Per §3, `TileID` is a newtype around an `Interval`. -/
structure TileID where
  val : Interval
deriving DecidableEq, Repr

/-- Modelled from the spec: `TileSet` is either empty (dynamic) or a list of
pyramid levels, each a list of `TileID`s. -/
structure TileSet where
  tiles : List (List TileID)
deriving DecidableEq, Repr

/-- Modelled from the spec: an `EntryID` index is a slot position or the
summary sentinel. -/
inductive EntryIndex where
  | slot (i : Nat)
  | summary
deriving DecidableEq, Repr

/-- Modelled from the spec: `EntryID` is an ordered sequence of indices. -/
abbrev EntryID : Type := List EntryIndex

def EntryID.root : EntryID := []

def EntryID.child (e : EntryID) (i : Nat) : EntryID := e ++ [EntryIndex.slot i]

/-- Modelled from the spec: `FieldID` is a numeric field identifier. -/
abbrev FieldID : Type := Nat

/-! ## TileManager (src/app/tile_manager.rs) -/

/-- `TileManager` state: the tile set, the total interval, and per-`full`
memos of the last request interval and the last returned tile list.  The
first pair component is the `full = false` slot, the second `full = true`,
as in the Rust field comments. -/
structure TileManager where
  tile_set : TileSet
  interval : Interval
  last_request_interval : Option Interval × Option Interval
  tile_cache : List TileID × List TileID
deriving DecidableEq, Repr

/-- `fn select<T>(cond, true_value, false_value)` from tile_manager.rs. -/
def select {α : Type} (cond : Bool) (true_value false_value : α) : α :=
  if cond then true_value else false_value

/-- Write a value into the pair slot selected by `full`. -/
def setSlot {α : Type} (full : Bool) (p : α × α) (v : α) : α × α :=
  if full then (p.1, v) else (v, p.2)

def TileManager.new (tile_set : TileSet) (interval : Interval) : TileManager :=
  ⟨tile_set, interval, (none, none), ([], [])⟩

/-- Outcome of `request_tiles`: a normal return with updated state, the
`todo!()` branch of the dynamic-profile path, or any other panic. -/
inductive TMOutcome where
  | ok (tiles : List TileID) (tm : TileManager)
  | todoBranch
  | panicked
deriving DecidableEq, Repr

/-- The `ratio` closure of `request_tiles`: `d`-to-`request_duration` ratio,
always ≥ 1 when both are positive.  `f64` division is modelled by exact
rational division (`Rat.divInt`, kernel-evaluable; equal to `(a : ℚ) / b`
for the integer operands arising here). -/
def ratioQ (d request_duration : Int) : ℚ :=
  if d < request_duration then Rat.divInt request_duration d
  else Rat.divInt d request_duration

/-- `fill_cache` from tile_manager.rs: record the request key, replace the
cache contents, and return them. -/
def TileManager.fillOutcome (tm : TileManager) (full : Bool) (values : List TileID)
    (key : Interval) : TMOutcome :=
  .ok values
    { tm with
      last_request_interval := setSlot full tm.last_request_interval (some key)
      tile_cache := setSlot full tm.tile_cache values }

/-- Dynamic-profile branch of `request_tiles` (empty tile set). -/
def TileManager.dynamicBranch (tm : TileManager) (full : Bool) (tile_cache : List TileID)
    (request_interval : Interval) : TMOutcome :=
  match tile_cache with
  | [] => tm.fillOutcome full [TileID.mk request_interval] request_interval
  | t0 :: rest =>
    let cache_interval : TileID := rest.foldl (fun a b => TileID.mk (a.val.union b.val)) t0
    if ratioQ t0.val.duration_ns request_interval.duration_ns ≤ 2 then
      if cache_interval.val.contains_interval request_interval then
        .ok tile_cache
          { tm with
            last_request_interval := setSlot full tm.last_request_interval (some request_interval) }
      else if cache_interval.val.overlaps request_interval then
        .todoBranch
      else
        tm.fillOutcome full [TileID.mk request_interval] request_interval
    else
      tm.fillOutcome full [TileID.mk request_interval] request_interval

/-- `Iterator::min_by` over pyramid levels keyed by `ratioQ` of the first
tile's duration; the first minimal level wins, as in Rust.  Returns `none`
(panic) when a compared level is empty (`first().unwrap()`). -/
def minByRatioAux (request_duration : Int) (best : List TileID) :
    List (List TileID) → Option (List TileID)
  | [] => some best
  | l :: rest =>
    match best.head?, l.head? with
    | some b0, some l0 =>
      minByRatioAux request_duration
        (if ratioQ b0.val.duration_ns request_duration ≤
            ratioQ l0.val.duration_ns request_duration
         then best else l) rest
    | _, _ => none

/-- Level choice of the static branch: `full` takes the last (finest) level,
otherwise the ratio-minimizing level. -/
def chooseLevel (tiles : List (List TileID)) (request_duration : Int) (full : Bool) :
    Option (List TileID) :=
  if full then tiles.getLast?
  else
    match tiles with
    | [] => none
    | h :: t => minByRatioAux request_duration h t

/-- Static-pyramid branch of `request_tiles`. -/
def TileManager.staticBranch (tm : TileManager) (full : Bool)
    (request_interval : Interval) : TMOutcome :=
  match chooseLevel tm.tile_set.tiles request_interval.duration_ns full with
  | none => .panicked
  | some lvl =>
    tm.fillOutcome full (lvl.filter (fun tile => decide (request_interval.overlaps tile.val)))
      request_interval

/-- `TileManager::request_tiles` from tile_manager.rs. -/
def TileManager.request_tiles (tm : TileManager) (view_interval : Interval)
    (full : Bool) : TMOutcome :=
  let last_request_interval := select full tm.last_request_interval.2 tm.last_request_interval.1
  let tile_cache := select full tm.tile_cache.2 tm.tile_cache.1
  let request_interval := view_interval.intersection tm.interval
  if last_request_interval = some request_interval then
    .ok tile_cache tm
  else if request_interval.duration_ns ≤ 0 then
    tm.fillOutcome full [] request_interval
  else if tm.tile_set.tiles.isEmpty then
    tm.dynamicBranch full tile_cache request_interval
  else
    tm.staticBranch full request_interval

/-- `TileManager::invalidate_cache`: retain only keys present in `tile_ids`
(the map is modelled as an association list). -/
def TileManager.invalidate_cache {α : Type} (tile_ids : List TileID)
    (cache : List (TileID × α)) : List (TileID × α) :=
  cache.filter (fun kv => decide (kv.1 ∈ tile_ids))

/-! ## DeferredDataSource wrapper stack (src/deferred_data.rs, src/app/core.rs)

The three tile kinds (summary / slot / slot-meta) are handled by textually
identical code in `deferred_data.rs`; they are embedded once as a
kind-generic pipeline (`KindPipe`), instantiated three times in the stack
state, with a payload type parameter in place of the concrete tile type.
The synchronous backend is a pure function, wrapped exactly as
`DeferredDataSourceWrapper` does (call at fetch time, stash the response
for the next get).  -/

/-- `TileRequest` from deferred_data.rs. -/
structure TileRequest where
  entry_id : EntryID
  tile_id : TileID
  full : Bool
deriving DecidableEq, Repr

/-- `data::Result<T>`: a tile value or a backend error string. -/
inductive TileResult (τ : Type) where
  | ok (v : τ)
  | err (msg : String)
deriving DecidableEq, Repr

/-- `TileResponse<T> = (TileResult<T>, TileRequest)`. -/
abbrev TileResponse (τ : Type) : Type := TileResult τ × TileRequest

/-- Look up `k`, and on a hit promote it to the front (most recently used
first).  Modelled from the spec: the `lru` crate cache used by
`LruDeferredDataSource` is not part of the provided sources. -/
def lruGet {κ ν : Type} [DecidableEq κ] (cache : List (κ × ν)) (k : κ) :
    Option (ν × List (κ × ν)) :=
  match cache.find? (fun p => p.1 = k) with
  | none => none
  | some p => some (p.2, p :: cache.filter (fun q => ¬ q.1 = k))

/-- Insert `k ↦ v` at the front, dropping any old binding; evict the least
recently used binding when over capacity.  Modelled from the spec: fixed
capacity per kind. -/
def lruPut {κ ν : Type} [DecidableEq κ] (cap : Nat) (cache : List (κ × ν))
    (k : κ) (v : ν) : List (κ × ν) :=
  let c := (k, v) :: cache.filter (fun q => ¬ q.1 = k)
  if cap < c.length then c.dropLast else c

/-- Per-kind state of the pipeline `LruDeferredDataSource
(DeferredDataSourceWrapper backend)`: the sync wrapper's stash, the LRU
cache and the LRU layer's own response queue. -/
structure KindPipe (τ : Type) where
  innerQueue : List (TileResponse τ)
  lruCache : List (TileRequest × TileResponse τ)
  lruQueue : List (TileResponse τ)
deriving DecidableEq, Repr

def KindPipe.empty {τ : Type} : KindPipe τ := ⟨[], [], []⟩

/-- `LruDeferredDataSource::fetch_*_tile` over the sync wrapper: on a hit
push the cached response onto the LRU queue; on a miss forward to the sync
wrapper, which calls the pure backend `f` and stashes the response. -/
def KindPipe.fetch {τ : Type} [DecidableEq τ] (f : EntryID → TileID → Bool → TileResult τ)
    (p : KindPipe τ) (entry_id : EntryID) (tile_id : TileID) (full : Bool) : KindPipe τ :=
  let req : TileRequest := ⟨entry_id, tile_id, full⟩
  match lruGet p.lruCache req with
  | some (tile, cache') =>
    { p with lruCache := cache', lruQueue := p.lruQueue ++ [tile] }
  | none =>
    { p with innerQueue := p.innerQueue ++ [(f entry_id tile_id full, req)] }

/-- `LruDeferredDataSource::get_*_tiles` over the sync wrapper: drain the
wrapper's stash, insert every drained response into the cache, append to
the LRU queue and take the whole queue. -/
def KindPipe.get {τ : Type} [DecidableEq τ] (cap : Nat) (p : KindPipe τ) :
    List (TileResponse τ) × KindPipe τ :=
  let result := p.innerQueue
  let cache' := result.foldl (fun c r => lruPut cap c r.2 r) p.lruCache
  (p.lruQueue ++ result, ⟨[], cache', []⟩)

/-- The data-source stack built by `Config::new` (core.rs):
`CountingDeferredDataSource::new(LruDeferredDataSource::new(src, 1024))`,
i.e. the counter is the OUTER layer and the LRU cache the INNER layer.
`outstanding_requests` is shared by all three kinds. -/
structure ConfigSource (σ τ μ : Type) where
  outstanding_requests : Nat
  summary : KindPipe σ
  slot : KindPipe τ
  slot_meta : KindPipe μ
deriving DecidableEq, Repr

def ConfigSource.empty {σ τ μ : Type} : ConfigSource σ τ μ :=
  ⟨0, KindPipe.empty, KindPipe.empty, KindPipe.empty⟩

/-- The LRU capacity passed by `Config::new`. -/
def configLruCapacity : Nat := 1024

/-- `fetch_summary_tile` through the `Config::new` stack: the outer counter
runs `start_request` (unconditional increment) and forwards to the LRU
layer. -/
def ConfigSource.fetch_summary_tile {σ τ μ : Type} [DecidableEq σ]
    (f : EntryID → TileID → Bool → TileResult σ) (st : ConfigSource σ τ μ)
    (entry_id : EntryID) (tile_id : TileID) (full : Bool) : ConfigSource σ τ μ :=
  { st with
    outstanding_requests := st.outstanding_requests + 1
    summary := st.summary.fetch f entry_id tile_id full }

/-- `fetch_slot_tile` through the `Config::new` stack. -/
def ConfigSource.fetch_slot_tile {σ τ μ : Type} [DecidableEq τ]
    (f : EntryID → TileID → Bool → TileResult τ) (st : ConfigSource σ τ μ)
    (entry_id : EntryID) (tile_id : TileID) (full : Bool) : ConfigSource σ τ μ :=
  { st with
    outstanding_requests := st.outstanding_requests + 1
    slot := st.slot.fetch f entry_id tile_id full }

/-- `fetch_slot_meta_tile` through the `Config::new` stack. -/
def ConfigSource.fetch_slot_meta_tile {σ τ μ : Type} [DecidableEq μ]
    (f : EntryID → TileID → Bool → TileResult μ) (st : ConfigSource σ τ μ)
    (entry_id : EntryID) (tile_id : TileID) (full : Bool) : ConfigSource σ τ μ :=
  { st with
    outstanding_requests := st.outstanding_requests + 1
    slot_meta := st.slot_meta.fetch f entry_id tile_id full }

/-- `get_slot_tiles` through the stack: the counter drains the LRU layer and
runs `finish_request`, which asserts `outstanding_requests >= count` before
subtracting (`none` models the assertion failure). -/
def ConfigSource.get_slot_tiles {σ τ μ : Type} [DecidableEq τ] (st : ConfigSource σ τ μ) :
    Option (List (TileResponse τ) × ConfigSource σ τ μ) :=
  let (result, p') := st.slot.get configLruCapacity
  if result.length ≤ st.outstanding_requests then
    some (result,
      { st with
        outstanding_requests := st.outstanding_requests - result.length
        slot := p' })
  else none

/-! ## CountingDeferredDataSource in isolation (src/deferred_data.rs)

For the counter invariant the inner `DeferredDataSource` is abstract: the
model tracks, besides the wrapper's own `outstanding_requests`, the number
`innerPending` of issued-but-undrained requests inside the wrapped source.
A fetch forwards downstream after `start_request`; a drain returns some
`k ≤ innerPending` completed responses chosen by the environment, passed
through `finish_request`.  -/

/-- Counter wrapper state: its `outstanding_requests` plus the abstract
inner source's undrained request count. -/
structure CountingModel where
  outstanding_requests : Nat
  innerPending : Nat
deriving DecidableEq, Repr

/-- `CountingDeferredDataSource::new`. -/
def CountingModel.new : CountingModel := ⟨0, 0⟩

/-- One interaction with the counter wrapper: a `fetch_*` call, or a `get_*`
call on which the inner source hands back `k` completed responses. -/
inductive CountingOp where
  | fetchOp
  | drainOp (k : Nat)
deriving DecidableEq, Repr

/-- `fetch_*`: `start_request` increments the counter, then forwards.
`get_*`: the environment may return any `k ≤ innerPending` responses
(a step with `k > innerPending` is not a behaviour of any real source);
`finish_request` asserts `outstanding_requests >= count` and subtracts.
`none` covers both the impossible environment step and the assertion
failing. -/
def CountingModel.step (s : CountingModel) : CountingOp → Option CountingModel
  | .fetchOp => some ⟨s.outstanding_requests + 1, s.innerPending + 1⟩
  | .drainOp k =>
    if k ≤ s.innerPending ∧ k ≤ s.outstanding_requests then
      some ⟨s.outstanding_requests - k, s.innerPending - k⟩
    else none

def CountingModel.run (s : CountingModel) : List CountingOp → Option CountingModel
  | [] => some s
  | op :: rest =>
    match s.step op with
    | some s' => s'.run rest
    | none => none

/-- Number of `fetch_*` calls in a trace. -/
def fetchesIssued : List CountingOp → Nat
  | [] => 0
  | .fetchOp :: rest => fetchesIssued rest + 1
  | .drainOp _ :: rest => fetchesIssued rest

/-- Number of responses drained in a trace. -/
def tilesDrained : List CountingOp → Nat
  | [] => 0
  | .fetchOp :: rest => tilesDrained rest
  | .drainOp k :: rest => tilesDrained rest + k

/-! ## Item fields (data.rs, modelled from the spec) -/

/-- Modelled from the spec: `ItemLink { item_uid, title, interval, entry_id }`
from `data.rs` (not part of the provided sources). -/
structure ItemLink where
  item_uid : Nat
  title : String
  interval : Interval
  entry_id : EntryID
deriving DecidableEq, Repr

/-- Modelled from the spec: the `Field` sum type of `data.rs` (not part of
the provided sources): `I64`, `U64`, `String`, `Interval`,
`ItemLink{...}`, `Vec[Field]`, `Empty`. -/
inductive Field where
  | I64 (x : Int)
  | U64 (x : Nat)
  | String (s : String)
  | Interval (i : Interval)
  | ItemLink (l : ItemLink)
  | Vec (fields : List Field)
  | Empty
deriving Repr

/-- Modelled from the spec: `ItemField = (FieldID, Field, optional color)`. -/
structure ItemField where
  field_id : FieldID
  field : Field
  color : Option Nat
deriving Repr

/-- Modelled from the spec: `ItemMeta { item_uid, original_interval, title,
fields }`. -/
structure ItemMeta where
  item_uid : Nat
  original_interval : Interval
  title : String
  fields : List ItemField
deriving Repr

/-! ## Columnar-export field types (src/arrow_data.rs) -/

/-- `FieldType` from arrow_data.rs. -/
inductive FieldType where
  | I64
  | U64
  | String
  | Interval
  | ItemLink
  | Vec (v : FieldType)
  | Empty
  | Unknown
deriving DecidableEq, Repr

/-- `FieldType::meet` from arrow_data.rs.  The `panic!` on an unknown
combination is modelled by `none`; the `Vec`/`Vec` case propagates an inner
panic.  Match arms are in source order (first match wins, as in Rust). -/
def FieldType.meet : FieldType → FieldType → Option FieldType
  | .I64, .I64 => some .I64
  | .U64, .U64 => some .U64
  | .String, .String => some .String
  | .Interval, .Interval => some .Interval
  | .ItemLink, .ItemLink => some .ItemLink
  | .Vec va, .Vec vb => (va.meet vb).map .Vec
  | .Empty, .Empty => some .Empty
  | .Unknown, x => some x
  | x, .Unknown => some x
  | .U64, .String => some .String
  | .String, .U64 => some .String
  | .U64, .ItemLink => some .ItemLink
  | .String, .ItemLink => some .ItemLink
  | .ItemLink, .U64 => some .ItemLink
  | .ItemLink, .String => some .ItemLink
  | _, _ => none

/-! ## DuckDB writer (src/duckdb_data.rs) -/

namespace DuckDB

/-- `FieldType` from duckdb_data.rs (distinct from the arrow one; it has no
`meet` and no `Unknown`/`ItemLink`). -/
inductive FieldType where
  | I64
  | U64
  | String
  | Interval
  | Vec
  | Empty
deriving DecidableEq, Repr

/-- `FieldType::infer_type` from duckdb_data.rs: `ItemLink` maps to
`String` ("for now"), `Vec` to the untyped `Vec` column. -/
def FieldType.infer_type : Field → FieldType
  | .I64 _ => .I64
  | .U64 _ => .U64
  | .String _ => .String
  | .Interval _ => .Interval
  | .ItemLink _ => .String
  | .Vec _ => .Vec
  | .Empty => .Empty

/-- `sanitize` from duckdb_data.rs: `replace(" ", "_")`, `replace("-",
"_")`, then `make_ascii_lowercase` (fused into one character map; `_` is a
fixed point of lowercasing). -/
def sanitize (s : String) : String :=
  String.mk (s.data.map (fun c => (if c == ' ' || c == '-' then '_' else c).toLower))

/-- One column of a per-entry table: the sanitized column name and its
type, keyed by `FieldID`.  The Rust `BTreeMap<FieldID, (String, FieldType)>`
is modelled as an association list (only first-binding lookup matters for
the claims). -/
abbrev EntryFields : Type := List (FieldID × String × FieldType)

def lookupField : EntryFields → FieldID → Option (String × FieldType)
  | [], _ => none
  | p :: rest, field_id => if p.1 = field_id then some p.2 else lookupField rest field_id

/-- The row-by-row, item-by-item, field-by-field iteration order of
`write_slot_meta_tile` over `tile.data.items`. -/
def tileFields (items : List (List ItemMeta)) : List ItemField :=
  ((items.map (fun row => (row.map (fun item => item.fields)).flatten)).flatten)

/-- `entry.entry(*field_id).or_insert_with(...)` for one `ItemField`. -/
def discoverStep (field_names : FieldID → String) (acc : EntryFields)
    (f : ItemField) : EntryFields :=
  if (lookupField acc f.field_id).isSome then acc
  else acc ++ [(f.field_id, sanitize (field_names f.field_id),
                FieldType.infer_type f.field)]

/-- The field-discovery loop of `write_slot_meta_tile` (duckdb_data.rs):
for every `ItemField` of every item of every row,
`entry.entry(field_id).or_insert_with(...)` — a `FieldID` already assigned
a column is left untouched; a new `FieldID` is assigned a column whose name
is the sanitized schema name and whose type is inferred from this (first)
value.  The emitted `ALTER TABLE ... ADD COLUMN` statements are I/O driven
exactly by the new bindings.  `field_names` models
`field_schema.field_names()` lookup (`get(..).unwrap()`) as a total map. -/
def discoverFields (field_names : FieldID → String) (entry : EntryFields)
    (items : List (List ItemMeta)) : EntryFields :=
  (tileFields items).foldl (discoverStep field_names) entry

end DuckDB

/-! ## SearchState (src/app/core.rs)

`BTreeMap`/`BTreeSet` containers are modelled as association lists /
`Finset`: only key lookup, in-place value update and cardinality are used
by the embedded operations.  The compiled word-boundary regex is modelled
by its source string (`regex::escape` of the query is kept abstract as the
query itself; no claim inspects the regex). -/

/-- `SearchCacheItem` from core.rs. -/
structure SearchCacheItem where
  item_uid : Nat
  irow : Nat
  interval : Interval
  title : String
deriving DecidableEq, Repr

abbrev TileSearchCache : Type := List (Nat × SearchCacheItem)

abbrev EntrySearchCache : Type := List (TileID × TileSearchCache)

/-- First-binding association-list lookup (`BTreeMap::get`). -/
def alLookup {κ ν : Type} [DecidableEq κ] (l : List (κ × ν)) (k : κ) : Option ν :=
  (l.find? (fun p => p.1 = k)).map (·.2)

/-- In-place value replacement for an existing key (`BTreeMap::get_mut`). -/
def alSet {κ ν : Type} [DecidableEq κ] (l : List (κ × ν)) (k : κ) (v : ν) :
    List (κ × ν) :=
  l.map (fun p => if p.1 = k then (k, v) else p)

/-- `SearchState` from core.rs (the fields driving cache validity and the
bounded result set). -/
structure SearchState where
  title_field : FieldID
  query : String
  last_query : String
  search_field : FieldID
  last_search_field : FieldID
  whole_word : Bool
  last_whole_word : Bool
  last_word_regex : Option String
  include_collapsed_entries : Bool
  last_include_collapsed_entries : Bool
  last_view_interval : Option Interval
  result_set : Finset Nat
  result_cache : List (EntryID × EntrySearchCache)
  entry_tree : List (Nat × List (Nat × List Nat))
deriving DecidableEq

/-- `SearchState::new`. -/
def SearchState.new (title_id : FieldID) : SearchState :=
  ⟨title_id, "", "", title_id, title_id, false, false, none, false, false,
   none, ∅, [], []⟩

/-- `SearchState::clear`. -/
def SearchState.clear (s : SearchState) : SearchState :=
  { s with result_set := ∅, result_cache := [], entry_tree := [] }

/-- The word-boundary regex source compiled on invalidation:
`format!("\x5cb\x7b\x7d\x5cb", escape(&query))` with `escape` kept
abstract. -/
def wordRegexSource (query : String) : String := "\x5cb" ++ query ++ "\x5cb"

/-- `SearchState::ensure_valid_cache` from core.rs: the five invalidation
triggers in source order, each updating its `last_*` mirror; on any
trigger, recompile the regex (when `whole_word`) and clear the caches.
Note the include-collapsed trigger fires only on the `true → false`
transition, and its `last_*` mirror is updated only then.  The Rust
`invalidate = true` assignments inside each `if` are rendered as a
disjunction accumulated alongside the (identically guarded) state
updates. -/
def SearchState.ensure_valid_cache (s : SearchState) (view_interval : Interval) :
    SearchState :=
  let invalidate := s.query ≠ s.last_query
  let s := if s.query ≠ s.last_query then { s with last_query := s.query } else s
  let invalidate := invalidate ∨ s.search_field ≠ s.last_search_field
  let s :=
    if s.search_field ≠ s.last_search_field then
      { s with last_search_field := s.search_field }
    else s
  let invalidate := invalidate ∨ s.whole_word ≠ s.last_whole_word
  let s :=
    if s.whole_word ≠ s.last_whole_word then { s with last_whole_word := s.whole_word }
    else s
  let invalidate := invalidate ∨
    (s.include_collapsed_entries ≠ s.last_include_collapsed_entries ∧
      ¬ s.include_collapsed_entries)
  let s :=
    if s.include_collapsed_entries ≠ s.last_include_collapsed_entries ∧
        ¬ s.include_collapsed_entries then
      { s with last_include_collapsed_entries := s.include_collapsed_entries }
    else s
  let invalidate := invalidate ∨ s.last_view_interval ≠ some view_interval
  let s :=
    if s.last_view_interval ≠ some view_interval then
      { s with last_view_interval := some view_interval }
    else s
  if invalidate then
    let s :=
      if s.whole_word then { s with last_word_regex := some (wordRegexSource s.query) }
      else s
    s.clear
  else s

/-- `MAX_SEARCH_RESULTS` from core.rs. -/
def MAX_SEARCH_RESULTS : Nat := 100000

/-- `SearchState::start_entry`: early exit at the bound, otherwise make
sure the entry has a (possibly empty) cache map, and recurse. -/
def SearchState.start_entry (s : SearchState) (entry_id : EntryID) :
    Bool × SearchState :=
  if MAX_SEARCH_RESULTS ≤ s.result_set.card then (false, s)
  else if (alLookup s.result_cache entry_id).isSome then (true, s)
  else (true, { s with result_cache := s.result_cache ++ [(entry_id, [])] })

/-- `SearchState::start_tile`: early exit at the bound; then
`result_cache[entry].unwrap()` (`none` models the `unwrap` panic when
`start_entry` was skipped), and the tile entry is processed only if new. -/
def SearchState.start_tile (s : SearchState) (entry_id : EntryID) (tile_id : TileID) :
    Option (Bool × SearchState) :=
  if MAX_SEARCH_RESULTS ≤ s.result_set.card then some (false, s)
  else
    match alLookup s.result_cache entry_id with
    | none => none
    | some cache =>
      match alLookup cache tile_id with
      | some _ => some (false, s)
      | none =>
        some (true,
          { s with result_cache := alSet s.result_cache entry_id (cache ++ [(tile_id, [])]) })

/-- `SearchState::insert`: early exit at the bound; dedupe on
`result_set`; on a new `ItemUID`, record a `SearchCacheItem` under
`(entry_id, tile_id)` (both `get_mut(..).unwrap()` panics model as
`none`). -/
def SearchState.insert (s : SearchState) (entry_id : EntryID) (tile_id : TileID)
    (irow : Nat) (item : ItemMeta) : Option SearchState :=
  if MAX_SEARCH_RESULTS ≤ s.result_set.card then some s
  else if item.item_uid ∈ s.result_set then some s
  else
    match alLookup s.result_cache entry_id with
    | none => none
    | some cache =>
      match alLookup cache tile_id with
      | none => none
      | some tileCache =>
        let tileCache' :=
          if (alLookup tileCache item.item_uid).isSome then tileCache
          else tileCache ++
            [(item.item_uid, ⟨item.item_uid, irow, item.original_interval, item.title⟩)]
        some { s with
          result_set := Insert.insert item.item_uid s.result_set
          result_cache :=
            alSet s.result_cache entry_id (alSet cache tile_id tileCache') }

/-- One search-population operation. -/
inductive SearchOp where
  | startEntryOp (entry_id : EntryID)
  | startTileOp (entry_id : EntryID) (tile_id : TileID)
  | insertOp (entry_id : EntryID) (tile_id : TileID) (irow : Nat) (item : ItemMeta)

def SearchState.stepOp (s : SearchState) : SearchOp → Option SearchState
  | .startEntryOp e => some (s.start_entry e).2
  | .startTileOp e t => (s.start_tile e t).map (·.2)
  | .insertOp e t irow item => s.insert e t irow item

def SearchState.runOps (s : SearchState) : List SearchOp → Option SearchState
  | [] => some s
  | op :: rest =>
    match s.stepOp op with
    | some s' => s'.runOps rest
    | none => none



/-! ## Concrete fixtures used by witnesses and counterexamples -/

/-- A search state with every knob against its mirror and nonempty caches,
about to shrink the search domain (`include_collapsed_entries` goes
`true → false`). -/
def searchStateShrinking : SearchState :=
  { SearchState.new 0 with
    query := "q", last_query := "q"
    include_collapsed_entries := false
    last_include_collapsed_entries := true
    last_view_interval := some ⟨0, 1⟩
    result_set := {5}
    result_cache := [([], [(TileID.mk ⟨0, 1⟩, [(5, ⟨5, 0, ⟨0, 1⟩, "t"⟩)])])]
    entry_tree := [(0, [(0, [0])])] }

/-- The same caches, growing the domain (`false → true`). -/
def searchStateGrowing : SearchState :=
  { searchStateShrinking with
    include_collapsed_entries := true
    last_include_collapsed_entries := false }

/-- A state exactly at the 100000-result bound. -/
def searchStateAtBound : SearchState :=
  { SearchState.new 0 with result_set := Finset.range 100000 }

def c2req : TileRequest := ⟨[EntryIndex.slot 0], TileID.mk ⟨0, 10⟩, false⟩

def c2resp : TileResponse Nat := (TileResult.ok 0, c2req)

def c2backend : EntryID → TileID → Bool → TileResult Nat := fun _ _ _ => .ok 0

/-- The stack state after one fetched-and-drained slot tile: counter back to
zero, the response cached in the LRU layer. -/
def c2drained : ConfigSource Nat Nat Nat :=
  { (ConfigSource.empty : ConfigSource Nat Nat Nat) with
    slot := ⟨[], [(c2req, c2resp)], []⟩ }

/-- A stack state whose three LRU caches each hold the one response. -/
def c2allCached : ConfigSource Nat Nat Nat :=
  ⟨0, ⟨[], [(c2req, c2resp)], []⟩, ⟨[], [(c2req, c2resp)], []⟩,
    ⟨[], [(c2req, c2resp)], []⟩⟩

/-- The pure static-profile answer: empty for non-positive clamped
duration, otherwise the chosen level filtered to the tiles overlapping the
request. -/
def staticTiles (ts : TileSet) (req : Interval) (full : Bool) : Option (List TileID) :=
  if req.duration_ns ≤ 0 then some []
  else (chooseLevel ts.tiles req.duration_ns full).map
    (fun lvl => lvl.filter (fun tile => decide (req.overlaps tile.val)))

/-- Memo consistency for a static tile set: per `full` flag, an unset memo
comes with an empty cache, and a set memo comes with the cache holding the
pure answer for the memoized request.  Holds for a fresh manager and is
preserved by every successful request. -/
def StaticInv (tm : TileManager) : Prop :=
  ∀ full : Bool,
    (select full tm.last_request_interval.2 tm.last_request_interval.1 = none →
      select full tm.tile_cache.2 tm.tile_cache.1 = []) ∧
    (∀ r : Interval,
      select full tm.last_request_interval.2 tm.last_request_interval.1 = some r →
      staticTiles tm.tile_set r full = some (select full tm.tile_cache.2 tm.tile_cache.1))

def c5ts : TileSet :=
  TileSet.mk [[TileID.mk ⟨0, 100⟩], [TileID.mk ⟨0, 50⟩, TileID.mk ⟨50, 100⟩]]

def c5tm : TileManager := TileManager.new c5ts ⟨0, 100⟩

/-! ## Algebraic properties of `FieldType.meet` -/

theorem meet_unknown_left (t : FieldType) : FieldType.meet .Unknown t = some t := by
  cases t <;> rfl

theorem meet_unknown_right (t : FieldType) : FieldType.meet t .Unknown = some t := by
  cases t <;> rfl

theorem meet_self : ∀ t : FieldType, t.meet t = some t := by
  intro t
  induction t with
  | Vec v ih => simp [FieldType.meet, ih]
  | _ => rfl

theorem meet_comm : ∀ a b : FieldType, a.meet b = b.meet a := by
  intro a
  induction a with
  | Vec va ih =>
    intro b
    cases b <;> try rfl
    rename_i vb
    simp [FieldType.meet, ih vb]
  | _ => intro b; cases b <;> rfl

theorem meet_assoc : ∀ a b c : FieldType,
    ((a.meet b).bind fun x => x.meet c) = ((b.meet c).bind fun y => a.meet y) := by
  intro a
  induction a with
  | Vec va ih =>
    intro b c
    cases b <;> cases c <;> try rfl
    case Vec.Vec vb vc =>
      have h := ih vb vc
      cases hab : va.meet vb with
      | none =>
        rw [hab] at h
        simp only [Option.none_bind] at h
        cases hbc : vb.meet vc with
        | none => simp [FieldType.meet, hab, hbc]
        | some y =>
          rw [hbc] at h
          simp only [Option.some_bind] at h
          simp [FieldType.meet, hab, hbc, ← h]
      | some w =>
        rw [hab] at h
        simp only [Option.some_bind] at h
        cases hbc : vb.meet vc with
        | none =>
          rw [hbc] at h
          simp only [Option.none_bind] at h
          simp [FieldType.meet, hab, hbc, h]
        | some y =>
          rw [hbc] at h
          simp only [Option.some_bind] at h
          simp [FieldType.meet, hab, hbc, h]
    all_goals
      rename_i vb
      cases hab : FieldType.meet va vb <;> simp [FieldType.meet, hab]
  | _ =>
    intro b c
    cases b <;> cases c <;>
      first
        | rfl
        | (rename_i vb vc; cases hbc : FieldType.meet vb vc <;> simp [FieldType.meet, hbc])


theorem CountingModel.run_invariant :
    ∀ (ops : List CountingOp) (s s' : CountingModel),
      s.innerPending = s.outstanding_requests →
      s.run ops = some s' →
      s'.innerPending = s'.outstanding_requests ∧
      s'.outstanding_requests + tilesDrained ops =
        s.outstanding_requests + fetchesIssued ops := by
  intro ops
  induction ops with
  | nil =>
    intro s s' hinv hrun
    simp only [CountingModel.run] at hrun
    cases hrun
    simp [tilesDrained, fetchesIssued, hinv]
  | cons op rest ih =>
    intro s s' hinv hrun
    simp only [CountingModel.run] at hrun
    cases hstep : s.step op with
    | none => rw [hstep] at hrun; simp at hrun
    | some s1 =>
      rw [hstep] at hrun
      simp only [] at hrun
      cases op with
      | fetchOp =>
        have hs1 : s1 = ⟨s.outstanding_requests + 1, s.innerPending + 1⟩ := by
          simpa [CountingModel.step] using hstep.symm
        subst hs1
        have h := ih _ s'
          (show s.innerPending + 1 = s.outstanding_requests + 1 by omega) hrun
        refine ⟨h.1, ?_⟩
        have h2 : s'.outstanding_requests + tilesDrained rest =
            (s.outstanding_requests + 1) + fetchesIssued rest := h.2
        simp only [tilesDrained, fetchesIssued]
        omega
      | drainOp k =>
        simp only [CountingModel.step] at hstep
        split at hstep
        · rename_i hcond
          have hs1 : s1 = ⟨s.outstanding_requests - k, s.innerPending - k⟩ := by
            cases hstep; rfl
          subst hs1
          have h := ih _ s'
            (show s.innerPending - k = s.outstanding_requests - k by omega) hrun
          refine ⟨h.1, ?_⟩
          have h2 : s'.outstanding_requests + tilesDrained rest =
              (s.outstanding_requests - k) + fetchesIssued rest := h.2
          simp only [tilesDrained, fetchesIssued]
          omega
        · exact absurd hstep (by simp)

/-- C9: `FieldType::meet` is idempotent (`meet t t = some t`), commutative
and associative as a total function into `Option FieldType` — in
particular on every pair and triple on which it is defined (does not
panic) — and `Unknown` is a two-sided identity element. -/
theorem fieldType_meet_algebra :
    (∀ t : FieldType, t.meet t = some t) ∧
    (∀ a b : FieldType, a.meet b = b.meet a) ∧
    (∀ a b c : FieldType,
      ((a.meet b).bind fun x => x.meet c) = ((b.meet c).bind fun y => a.meet y)) ∧
    (∀ t : FieldType, FieldType.meet .Unknown t = some t ∧ t.meet .Unknown = some t) :=
  ⟨meet_self, meet_comm, meet_assoc, fun t => ⟨meet_unknown_left t, meet_unknown_right t⟩⟩

/-- C7: for every operation sequence through `CountingDeferredDataSource`
(abstract inner source), at every quiescent point `outstanding_requests`
equals fetches issued minus responses drained (never negative: drained ≤
issued, and the equation holds over `ℕ` without truncation), and the
`finish_request` assertion `outstanding_requests >= count` holds for every
count of responses the inner source can actually return. -/
theorem counting_outstanding_requests_correct :
    ∀ (ops : List CountingOp) (s' : CountingModel),
      CountingModel.new.run ops = some s' →
      s'.outstanding_requests + tilesDrained ops = fetchesIssued ops ∧
      s'.outstanding_requests = fetchesIssued ops - tilesDrained ops ∧
      tilesDrained ops ≤ fetchesIssued ops ∧
      (∀ k : Nat, k ≤ s'.innerPending → k ≤ s'.outstanding_requests) := by
  intro ops s' hrun
  have h := CountingModel.run_invariant ops CountingModel.new s' rfl hrun
  have h1 := h.1
  have h2 := h.2
  simp only [CountingModel.new] at h2
  refine ⟨by omega, by omega, by omega, ?_⟩
  intro k hk
  omega

/-- Witness for C7: spec scenario 5 — three fetches, drain two, drain one:
the counter passes through 1 and ends at 0. -/
theorem counting_outstanding_requests_correct_witness :
    (CountingModel.new.run
        [.fetchOp, .fetchOp, .fetchOp, .drainOp 2] = some ⟨1, 1⟩ ∧
      CountingModel.new.run
        [.fetchOp, .fetchOp, .fetchOp, .drainOp 2, .drainOp 1] = some ⟨0, 0⟩) ∧
    (CountingModel.mk 1 1).outstanding_requests +
        tilesDrained [.fetchOp, .fetchOp, .fetchOp, .drainOp 2] =
      fetchesIssued [.fetchOp, .fetchOp, .fetchOp, .drainOp 2] ∧
    (CountingModel.mk 0 0).outstanding_requests =
      fetchesIssued [.fetchOp, .fetchOp, .fetchOp, .drainOp 2, .drainOp 1] -
        tilesDrained [.fetchOp, .fetchOp, .fetchOp, .drainOp 2, .drainOp 1] :=
  ⟨⟨by decide, by decide⟩,
    (counting_outstanding_requests_correct
      [.fetchOp, .fetchOp, .fetchOp, .drainOp 2] ⟨1, 1⟩ (by decide)).1,
    (counting_outstanding_requests_correct
      [.fetchOp, .fetchOp, .fetchOp, .drainOp 2, .drainOp 1] ⟨0, 0⟩ (by decide)).2.1⟩

/-! ## Search-state theorems -/

/-- C4: for every search state, flipping `include_collapsed_entries` from
`true` to `false` fully clears the search caches (`result_set`,
`result_cache`, `entry_tree`) on the next `ensure_valid_cache`; flipping it
from `false` to `true` with every other knob and the view interval
unchanged leaves the state (hence the cache) entirely intact. -/
theorem search_include_collapsed_invalidation (s : SearchState) (v : Interval) :
    (s.last_include_collapsed_entries = true → s.include_collapsed_entries = false →
      (s.ensure_valid_cache v).result_set = ∅ ∧
      (s.ensure_valid_cache v).result_cache = [] ∧
      (s.ensure_valid_cache v).entry_tree = []) ∧
    (s.include_collapsed_entries = true → s.last_include_collapsed_entries = false →
      s.query = s.last_query → s.search_field = s.last_search_field →
      s.whole_word = s.last_whole_word → s.last_view_interval = some v →
      s.ensure_valid_cache v = s) := by
  constructor
  · intro h1 h2
    by_cases hq : s.query = s.last_query <;>
      by_cases hsf : s.search_field = s.last_search_field <;>
        by_cases hw : s.whole_word = s.last_whole_word <;>
          by_cases hv : s.last_view_interval = some v <;>
            simp [SearchState.ensure_valid_cache, SearchState.clear, hq, hsf, hw, hv,
              h1, h2]
  · intro h1 h2 h3 h4 h5 h6
    simp [SearchState.ensure_valid_cache, h1, h2, h3, h4, h5, h6]

/-- Witness for C4 at concrete states: shrinking clears all three caches;
growing leaves the state untouched. -/
theorem search_include_collapsed_invalidation_witness :
    ((searchStateShrinking.ensure_valid_cache ⟨0, 1⟩).result_set = ∅ ∧
      (searchStateShrinking.ensure_valid_cache ⟨0, 1⟩).result_cache = [] ∧
      (searchStateShrinking.ensure_valid_cache ⟨0, 1⟩).entry_tree = []) ∧
    searchStateGrowing.ensure_valid_cache ⟨0, 1⟩ = searchStateGrowing :=
  ⟨(search_include_collapsed_invalidation searchStateShrinking ⟨0, 1⟩).1 rfl rfl,
    (search_include_collapsed_invalidation searchStateGrowing ⟨0, 1⟩).2
      rfl rfl rfl rfl rfl rfl⟩

theorem SearchState.start_entry_card (s : SearchState) (e : EntryID) :
    ((s.start_entry e).2).result_set = s.result_set := by
  unfold SearchState.start_entry
  split_ifs <;> rfl

theorem SearchState.start_tile_card (s : SearchState) (e : EntryID) (t : TileID)
    (r : Bool × SearchState) (h : s.start_tile e t = some r) :
    r.2.result_set = s.result_set := by
  unfold SearchState.start_tile at h
  split_ifs at h
  · cases h; rfl
  · cases he : alLookup s.result_cache e with
    | none => rw [he] at h; exact absurd h (by simp)
    | some cache =>
      rw [he] at h
      simp only [] at h
      cases ht : alLookup cache t with
      | none => rw [ht] at h; simp only [] at h; cases h; rfl
      | some x => rw [ht] at h; simp only [] at h; cases h; rfl

theorem SearchState.insert_card (s : SearchState) (e : EntryID) (t : TileID)
    (irow : Nat) (item : ItemMeta) (s' : SearchState)
    (h : s.insert e t irow item = some s')
    (hb : s.result_set.card ≤ MAX_SEARCH_RESULTS) :
    s'.result_set.card ≤ MAX_SEARCH_RESULTS := by
  unfold SearchState.insert at h
  split_ifs at h with h1 h2
  · cases h; exact hb
  · cases h; exact hb
  · cases he : alLookup s.result_cache e with
    | none => rw [he] at h; exact absurd h (by simp)
    | some cache =>
      rw [he] at h
      simp only [] at h
      cases ht : alLookup cache t with
      | none => rw [ht] at h; exact absurd h (by simp)
      | some tileCache =>
        rw [ht] at h
        simp only [] at h
        cases h
        have hcard := Finset.card_insert_le item.item_uid s.result_set
        simp only [MAX_SEARCH_RESULTS] at h1 hb ⊢
        omega

/-- C8: the search result set is bounded: any operation sequence run from a
state within the bound stays within the bound, and at the bound
`start_entry` and `start_tile` return `false` without touching the state
and `insert` returns the state unchanged. -/
theorem search_result_set_bounded :
    (∀ (ops : List SearchOp) (s s' : SearchState),
      s.result_set.card ≤ MAX_SEARCH_RESULTS →
      s.runOps ops = some s' →
      s'.result_set.card ≤ MAX_SEARCH_RESULTS) ∧
    (∀ (s : SearchState) (e : EntryID) (t : TileID) (irow : Nat) (item : ItemMeta),
      MAX_SEARCH_RESULTS ≤ s.result_set.card →
      s.start_entry e = (false, s) ∧
      s.start_tile e t = some (false, s) ∧
      s.insert e t irow item = some s) := by
  constructor
  · intro ops
    induction ops with
    | nil =>
      intro s s' hb hrun
      simp only [SearchState.runOps] at hrun
      cases hrun
      exact hb
    | cons op rest ih =>
      intro s s' hb hrun
      simp only [SearchState.runOps] at hrun
      cases hstep : s.stepOp op with
      | none => rw [hstep] at hrun; simp at hrun
      | some s1 =>
        rw [hstep] at hrun
        simp only [] at hrun
        refine ih s1 s' ?_ hrun
        cases op with
        | startEntryOp e =>
          simp only [SearchState.stepOp] at hstep
          cases hstep
          rw [SearchState.start_entry_card]
          exact hb
        | startTileOp e t =>
          simp only [SearchState.stepOp] at hstep
          cases hr : s.start_tile e t with
          | none => rw [hr] at hstep; cases hstep
          | some r =>
            rw [hr] at hstep
            cases hstep
            rw [SearchState.start_tile_card s e t r hr]
            exact hb
        | insertOp e t irow item =>
          simp only [SearchState.stepOp] at hstep
          exact SearchState.insert_card s e t irow item s1 hstep hb
  · intro s e t irow item hb
    refine ⟨?_, ?_, ?_⟩
    · unfold SearchState.start_entry
      rw [if_pos hb]
    · unfold SearchState.start_tile
      rw [if_pos hb]
    · unfold SearchState.insert
      rw [if_pos hb]

/-- Witness for C8: a small concrete trace stays bounded, and at the bound
all three operations short-circuit. -/
theorem search_result_set_bounded_witness :
    ({ SearchState.new 0 with
        result_set := {7}
        result_cache :=
          [([], [(TileID.mk ⟨0, 1⟩, [(7, ⟨7, 0, ⟨0, 1⟩, "x"⟩)])])] }
          : SearchState).result_set.card ≤ MAX_SEARCH_RESULTS ∧
    (searchStateAtBound.start_entry [] = (false, searchStateAtBound) ∧
      searchStateAtBound.start_tile [] (TileID.mk ⟨0, 1⟩) =
        some (false, searchStateAtBound) ∧
      searchStateAtBound.insert [] (TileID.mk ⟨0, 1⟩) 0 ⟨9, ⟨0, 1⟩, "x", []⟩ =
        some searchStateAtBound) :=
  ⟨search_result_set_bounded.1
      [.startEntryOp [], .startTileOp [] (TileID.mk ⟨0, 1⟩),
        .insertOp [] (TileID.mk ⟨0, 1⟩) 0 ⟨7, ⟨0, 1⟩, "x", []⟩]
      (SearchState.new 0) _ (by decide) (by decide),
    search_result_set_bounded.2 searchStateAtBound [] (TileID.mk ⟨0, 1⟩) 0
      ⟨9, ⟨0, 1⟩, "x", []⟩
      (by simp [searchStateAtBound, MAX_SEARCH_RESULTS])⟩

/-! ## DuckDB writer field-discovery theorems -/

theorem DuckDB.lookupField_append_left {l l2 : DuckDB.EntryFields} {fid : FieldID}
    {x : String × DuckDB.FieldType} (h : DuckDB.lookupField l fid = some x) :
    DuckDB.lookupField (l ++ l2) fid = some x := by
  induction l with
  | nil => cases h
  | cons p rest ih =>
    simp only [List.cons_append, DuckDB.lookupField] at h ⊢
    split_ifs at h ⊢ with hp
    · exact h
    · exact ih h

theorem DuckDB.lookupField_append_single_ne {l : DuckDB.EntryFields} {fid fid2 : FieldID}
    {v : String × DuckDB.FieldType} (hne : fid2 ≠ fid)
    (h : DuckDB.lookupField l fid = none) :
    DuckDB.lookupField (l ++ [(fid2, v)]) fid = none := by
  induction l with
  | nil => simp [DuckDB.lookupField, hne]
  | cons p rest ih =>
    simp only [List.cons_append, DuckDB.lookupField] at h ⊢
    split_ifs at h ⊢ with hp
    exact ih h

theorem DuckDB.lookupField_append_single_self {l : DuckDB.EntryFields} {fid : FieldID}
    {v : String × DuckDB.FieldType} (h : DuckDB.lookupField l fid = none) :
    DuckDB.lookupField (l ++ [(fid, v)]) fid = some v := by
  induction l with
  | nil => simp [DuckDB.lookupField]
  | cons p rest ih =>
    simp only [List.cons_append, DuckDB.lookupField] at h ⊢
    split_ifs at h ⊢ with hp
    exact ih h

theorem DuckDB.foldl_discover_preserves (field_names : FieldID → String)
    (fs : List ItemField) :
    ∀ (entry : DuckDB.EntryFields) (fid : FieldID) (x : String × DuckDB.FieldType),
      DuckDB.lookupField entry fid = some x →
      DuckDB.lookupField (fs.foldl (DuckDB.discoverStep field_names) entry) fid = some x := by
  induction fs with
  | nil => intro entry fid x h; exact h
  | cons f rest ih =>
    intro entry fid x h
    simp only [List.foldl_cons]
    refine ih _ fid x ?_
    unfold DuckDB.discoverStep
    split_ifs with hs
    · exact h
    · exact DuckDB.lookupField_append_left h

theorem DuckDB.foldl_discover_first (field_names : FieldID → String)
    (fs : List ItemField) :
    ∀ (entry : DuckDB.EntryFields) (fid : FieldID) (f0 : ItemField),
      DuckDB.lookupField entry fid = none →
      fs.find? (fun f => f.field_id = fid) = some f0 →
      DuckDB.lookupField (fs.foldl (DuckDB.discoverStep field_names) entry) fid =
        some (DuckDB.sanitize (field_names fid), DuckDB.FieldType.infer_type f0.field) := by
  induction fs with
  | nil => intro entry fid f0 _ hfind; cases hfind
  | cons f rest ih =>
    intro entry fid f0 hnone hfind
    simp only [List.foldl_cons]
    by_cases hf : f.field_id = fid
    · rw [List.find?_cons_of_pos _ (by simp [hf])] at hfind
      have hf0 : f0 = f := by
        injection hfind with h'
        exact h'.symm
      have hnone' : DuckDB.lookupField entry f.field_id = none := by
        rw [hf]; exact hnone
      have hstep : DuckDB.discoverStep field_names entry f =
          entry ++ [(f.field_id, DuckDB.sanitize (field_names f.field_id),
                     DuckDB.FieldType.infer_type f.field)] := by
        unfold DuckDB.discoverStep
        rw [if_neg]
        simp [hnone']
      rw [hstep, hf0]
      have hres := DuckDB.foldl_discover_preserves field_names rest
        (entry ++ [(f.field_id, DuckDB.sanitize (field_names f.field_id),
          DuckDB.FieldType.infer_type f.field)])
        f.field_id _ (DuckDB.lookupField_append_single_self hnone')
      rw [← hf]
      exact hres
    · rw [List.find?_cons_of_neg _ (by simp [hf])] at hfind
      refine ih _ fid f0 ?_ hfind
      unfold DuckDB.discoverStep
      split_ifs with hs
      · exact hnone
      · exact DuckDB.lookupField_append_single_ne hf hnone

/-- C3 counterexample: the DuckDB writer does NOT upgrade an existing
column.  Field 1 is first ingested as `U64` and later as `String`;
`FieldType::meet U64 String = String` differs from the old type `U64`, yet
after both tiles the column is still `U64` — no meet is computed and no
upgrade happens (the duckdb-writer `FieldType` has no `meet` at all). -/
theorem duckdb_writer_no_column_upgrade :
    DuckDB.lookupField
        (DuckDB.discoverFields (fun _ => "fld")
          (DuckDB.discoverFields (fun _ => "fld") []
            [[⟨1, ⟨0, 1⟩, "a", [⟨1, Field.U64 3, none⟩]⟩]])
          [[⟨2, ⟨0, 1⟩, "b", [⟨1, Field.String "x", none⟩]⟩]])
        1 =
      some ("fld", DuckDB.FieldType.U64) ∧
    FieldType.meet .U64 .String = some .String ∧
    some ("fld", DuckDB.FieldType.U64) ≠ some ("fld", DuckDB.FieldType.String) :=
  ⟨by decide, by decide, by decide⟩

/-- C3 (amended): during columnar export, an `ItemField` whose `FieldID`
was already assigned a column leaves that column's name and type unchanged
(no `meet` is computed and no upgrade occurs), while a new `FieldID`
appends a column whose type is inferred from the first value it carries in
the tile. -/
theorem duckdb_discover_fields_correct (field_names : FieldID → String)
    (entry : DuckDB.EntryFields) (items : List (List ItemMeta)) :
    (∀ (fid : FieldID) (x : String × DuckDB.FieldType),
      DuckDB.lookupField entry fid = some x →
      DuckDB.lookupField (DuckDB.discoverFields field_names entry items) fid = some x) ∧
    (∀ (fid : FieldID) (f0 : ItemField),
      DuckDB.lookupField entry fid = none →
      (DuckDB.tileFields items).find? (fun f => f.field_id = fid) = some f0 →
      DuckDB.lookupField (DuckDB.discoverFields field_names entry items) fid =
        some (DuckDB.sanitize (field_names fid),
          DuckDB.FieldType.infer_type f0.field)) :=
  ⟨fun fid x h => DuckDB.foldl_discover_preserves field_names _ entry fid x h,
    fun fid f0 h1 h2 => DuckDB.foldl_discover_first field_names _ entry fid f0 h1 h2⟩

/-- Witness for C3 (amended): an existing `U64` column for field 1 survives
a `String` value unchanged, and fresh field 2 gets a `String` column from
its first value. -/
theorem duckdb_discover_fields_correct_witness :
    DuckDB.lookupField
        (DuckDB.discoverFields (fun _ => "fld")
          [(1, "fld", DuckDB.FieldType.U64)]
          [[⟨2, ⟨0, 1⟩, "b", [⟨1, Field.String "x", none⟩, ⟨2, Field.String "y", none⟩]⟩]])
        1 =
      some ("fld", DuckDB.FieldType.U64) ∧
    DuckDB.lookupField
        (DuckDB.discoverFields (fun _ => "fld")
          [(1, "fld", DuckDB.FieldType.U64)]
          [[⟨2, ⟨0, 1⟩, "b", [⟨1, Field.String "x", none⟩, ⟨2, Field.String "y", none⟩]⟩]])
        2 =
      some ("fld", DuckDB.FieldType.String) :=
  ⟨(duckdb_discover_fields_correct (fun _ => "fld")
      [(1, "fld", DuckDB.FieldType.U64)]
      [[⟨2, ⟨0, 1⟩, "b", [⟨1, Field.String "x", none⟩, ⟨2, Field.String "y", none⟩]⟩]]).1
      1 ("fld", DuckDB.FieldType.U64) (by decide),
    (duckdb_discover_fields_correct (fun _ => "fld")
      [(1, "fld", DuckDB.FieldType.U64)]
      [[⟨2, ⟨0, 1⟩, "b", [⟨1, Field.String "x", none⟩, ⟨2, Field.String "y", none⟩]⟩]]).2
      2 ⟨2, Field.String "y", none⟩ (by decide) (by rfl)⟩

/-! ## LRU / Counting wrapper-stack theorems -/

/-- C2 counterexample: in the `Config::new` stack the Counting wrapper is
OUTSIDE the LRU layer, so a slot-tile cache hit — which enqueues the cached
response without invoking the wrapped source (`innerQueue` stays empty) —
still increments `outstanding_requests` from 0 to 1, contradicting the
claim that cache hits are not counted. -/
theorem lru_counting_order_counterexample :
    ConfigSource.get_slot_tiles
        (ConfigSource.fetch_slot_tile c2backend ConfigSource.empty
          [EntryIndex.slot 0] (TileID.mk ⟨0, 10⟩) false) =
      some ([c2resp], c2drained) ∧
    (ConfigSource.fetch_slot_tile c2backend c2drained
        [EntryIndex.slot 0] (TileID.mk ⟨0, 10⟩) false).slot.innerQueue = [] ∧
    (ConfigSource.fetch_slot_tile c2backend c2drained
        [EntryIndex.slot 0] (TileID.mk ⟨0, 10⟩) false).slot.lruQueue = [c2resp] ∧
    (ConfigSource.fetch_slot_tile c2backend c2drained
        [EntryIndex.slot 0] (TileID.mk ⟨0, 10⟩) false).outstanding_requests = 1 :=
  ⟨by decide, by decide, by decide, by decide⟩

/-- C2 (amended): a summary, slot, or slot-meta tile request that hits the
LRU cache enqueues the cached response into the LRU layer's poll queue and
never invokes the wrapped source, but — because `Config::new` orders the
Counting wrapper outside the LRU layer — it still increments the enclosing
counter's `outstanding_requests` by exactly one. -/
theorem lru_hit_enqueues_and_still_counts {σ τ μ : Type}
    [DecidableEq σ] [DecidableEq τ] [DecidableEq μ]
    (fS : EntryID → TileID → Bool → TileResult σ)
    (fT : EntryID → TileID → Bool → TileResult τ)
    (fM : EntryID → TileID → Bool → TileResult μ)
    (st : ConfigSource σ τ μ) (entry_id : EntryID) (tile_id : TileID) (full : Bool) :
    (∀ v cache', lruGet st.summary.lruCache ⟨entry_id, tile_id, full⟩ = some (v, cache') →
      ConfigSource.fetch_summary_tile fS st entry_id tile_id full =
        { st with
          outstanding_requests := st.outstanding_requests + 1
          summary := { st.summary with
            lruCache := cache', lruQueue := st.summary.lruQueue ++ [v] } }) ∧
    (∀ v cache', lruGet st.slot.lruCache ⟨entry_id, tile_id, full⟩ = some (v, cache') →
      ConfigSource.fetch_slot_tile fT st entry_id tile_id full =
        { st with
          outstanding_requests := st.outstanding_requests + 1
          slot := { st.slot with
            lruCache := cache', lruQueue := st.slot.lruQueue ++ [v] } }) ∧
    (∀ v cache', lruGet st.slot_meta.lruCache ⟨entry_id, tile_id, full⟩ = some (v, cache') →
      ConfigSource.fetch_slot_meta_tile fM st entry_id tile_id full =
        { st with
          outstanding_requests := st.outstanding_requests + 1
          slot_meta := { st.slot_meta with
            lruCache := cache', lruQueue := st.slot_meta.lruQueue ++ [v] } }) := by
  refine ⟨?_, ?_, ?_⟩ <;>
    intro v cache' h <;>
      simp [ConfigSource.fetch_summary_tile, ConfigSource.fetch_slot_tile,
        ConfigSource.fetch_slot_meta_tile, KindPipe.fetch, h]

/-- Witness for C2 (amended) at a concrete all-cached state. -/
theorem lru_hit_enqueues_and_still_counts_witness :
    ConfigSource.fetch_summary_tile c2backend c2allCached
        [EntryIndex.slot 0] (TileID.mk ⟨0, 10⟩) false =
      { c2allCached with
        outstanding_requests := 1
        summary := ⟨[], [(c2req, c2resp)], [c2resp]⟩ } ∧
    ConfigSource.fetch_slot_tile c2backend c2allCached
        [EntryIndex.slot 0] (TileID.mk ⟨0, 10⟩) false =
      { c2allCached with
        outstanding_requests := 1
        slot := ⟨[], [(c2req, c2resp)], [c2resp]⟩ } ∧
    ConfigSource.fetch_slot_meta_tile c2backend c2allCached
        [EntryIndex.slot 0] (TileID.mk ⟨0, 10⟩) false =
      { c2allCached with
        outstanding_requests := 1
        slot_meta := ⟨[], [(c2req, c2resp)], [c2resp]⟩ } := by
  refine ⟨?_, ?_, ?_⟩
  · rw [(lru_hit_enqueues_and_still_counts c2backend c2backend c2backend c2allCached
        [EntryIndex.slot 0] (TileID.mk ⟨0, 10⟩) false).1 c2resp [(c2req, c2resp)]
        (by decide)]
    decide
  · rw [(lru_hit_enqueues_and_still_counts c2backend c2backend c2backend c2allCached
        [EntryIndex.slot 0] (TileID.mk ⟨0, 10⟩) false).2.1 c2resp [(c2req, c2resp)]
        (by decide)]
    decide
  · rw [(lru_hit_enqueues_and_still_counts c2backend c2backend c2backend c2allCached
        [EntryIndex.slot 0] (TileID.mk ⟨0, 10⟩) false).2.2 c2resp [(c2req, c2resp)]
        (by decide)]
    decide

/-! ## TileManager theorems -/

theorem select_setSlot {α : Type} (full : Bool) (p : α × α) (v : α) :
    select full (setSlot full p v).2 (setSlot full p v).1 = v := by
  cases full <;> rfl

/-- C1 counterexample: on a dynamic profile (`interval = [0,100]`), after
requesting `[0,90]` the viewport shrinks to `[0,80]`; the clamped request
has positive duration, yet `request_tiles` returns the previously cached
tile `[TileID([0,90])]`, not `[TileID([0,80])]`. -/
theorem dynamic_rerequest_counterexample :
    (TileManager.new (TileSet.mk []) ⟨0, 100⟩).request_tiles ⟨0, 90⟩ false =
      .ok [TileID.mk ⟨0, 90⟩]
        { TileManager.new (TileSet.mk []) ⟨0, 100⟩ with
          last_request_interval := (some ⟨0, 90⟩, none)
          tile_cache := ([TileID.mk ⟨0, 90⟩], []) } ∧
    ({ TileManager.new (TileSet.mk []) ⟨0, 100⟩ with
        last_request_interval := (some ⟨0, 90⟩, none)
        tile_cache := ([TileID.mk ⟨0, 90⟩], []) } : TileManager).request_tiles
        ⟨0, 80⟩ false =
      .ok [TileID.mk ⟨0, 90⟩]
        { TileManager.new (TileSet.mk []) ⟨0, 100⟩ with
          last_request_interval := (some ⟨0, 80⟩, none)
          tile_cache := ([TileID.mk ⟨0, 90⟩], []) } ∧
    [TileID.mk (Interval.mk 0 90)] ≠ [TileID.mk (Interval.mk 0 80)] :=
  ⟨by decide, by decide, by decide⟩

/-- C1 (amended): on a dynamic profile with a positive-duration clamped
request that misses the per-flag memo, `request_tiles` returns exactly
`[TileID(view ∩ interval)]` whenever the per-flag tile cache is empty (in
particular on the first request); when cached tiles exist, pass the drift
test (first cached tile's duration within a factor 2 of the request
duration) and their union contains the clamped request, the previously
cached tiles are returned unchanged instead of a fresh single tile. -/
theorem dynamic_request_tiles (tm : TileManager) (view_interval : Interval) (full : Bool)
    (htiles : tm.tile_set.tiles = [])
    (hmemo : select full tm.last_request_interval.2 tm.last_request_interval.1 ≠
      some (view_interval.intersection tm.interval))
    (hdur : 0 < (view_interval.intersection tm.interval).duration_ns) :
    (select full tm.tile_cache.2 tm.tile_cache.1 = [] →
      tm.request_tiles view_interval full =
        .ok [TileID.mk (view_interval.intersection tm.interval)]
          { tm with
            last_request_interval :=
              setSlot full tm.last_request_interval
                (some (view_interval.intersection tm.interval))
            tile_cache :=
              setSlot full tm.tile_cache
                [TileID.mk (view_interval.intersection tm.interval)] }) ∧
    (∀ t0 rest, select full tm.tile_cache.2 tm.tile_cache.1 = t0 :: rest →
      ratioQ t0.val.duration_ns (view_interval.intersection tm.interval).duration_ns ≤ 2 →
      (rest.foldl (fun a b => TileID.mk (a.val.union b.val)) t0).val.contains_interval
        (view_interval.intersection tm.interval) →
      tm.request_tiles view_interval full =
        .ok (t0 :: rest)
          { tm with
            last_request_interval :=
              setSlot full tm.last_request_interval
                (some (view_interval.intersection tm.interval)) }) := by
  constructor
  · intro hcache
    simp only [TileManager.request_tiles]
    rw [if_neg hmemo, if_neg (by omega), if_pos (by simp [htiles]), hcache]
    simp [TileManager.dynamicBranch, TileManager.fillOutcome]
  · intro t0 rest hcache hratio hcontains
    simp only [TileManager.request_tiles]
    rw [if_neg hmemo, if_neg (by omega), if_pos (by simp [htiles]), hcache]
    simp only [TileManager.dynamicBranch]
    rw [if_pos hratio, if_pos hcontains]

/-- C10: on a dynamic profile, when the per-flag memo misses, the clamped
request has positive duration, the cached tiles pass the drift test
(`ratio ≤ 2`) and their union overlaps but does not contain the clamped
request, `request_tiles` reaches the unimplemented `todo!()` branch and
aborts. -/
theorem dynamic_request_tiles_todo (tm : TileManager) (view_interval : Interval)
    (full : Bool) (t0 : TileID) (rest : List TileID)
    (htiles : tm.tile_set.tiles = [])
    (hmemo : select full tm.last_request_interval.2 tm.last_request_interval.1 ≠
      some (view_interval.intersection tm.interval))
    (hdur : 0 < (view_interval.intersection tm.interval).duration_ns)
    (hcache : select full tm.tile_cache.2 tm.tile_cache.1 = t0 :: rest)
    (hratio : ratioQ t0.val.duration_ns
      (view_interval.intersection tm.interval).duration_ns ≤ 2)
    (hncontains : ¬ (rest.foldl (fun a b => TileID.mk (a.val.union b.val)) t0).val.contains_interval
      (view_interval.intersection tm.interval))
    (hoverlaps : (rest.foldl (fun a b => TileID.mk (a.val.union b.val)) t0).val.overlaps
      (view_interval.intersection tm.interval)) :
    tm.request_tiles view_interval full = .todoBranch := by
  simp only [TileManager.request_tiles]
  rw [if_neg hmemo, if_neg (by omega), if_pos (by simp [htiles]), hcache]
  simp only [TileManager.dynamicBranch]
  rw [if_pos hratio, if_neg hncontains, if_pos hoverlaps]

/-- Witness for C10, showing the panic is reachable from a fresh dynamic
manager: request `[0,10]`, then shift the viewport to `[5,15]` — the cache
`[TileID([0,10])]` has ratio 1 ≤ 2 and partially overlaps `[5,15]` without
containing it, so the second call hits `todo!()`. -/
theorem dynamic_request_tiles_todo_witness :
    (TileManager.new (TileSet.mk []) ⟨0, 100⟩).request_tiles ⟨0, 10⟩ false =
      .ok [TileID.mk ⟨0, 10⟩]
        { TileManager.new (TileSet.mk []) ⟨0, 100⟩ with
          last_request_interval := (some ⟨0, 10⟩, none)
          tile_cache := ([TileID.mk ⟨0, 10⟩], []) } ∧
    ({ TileManager.new (TileSet.mk []) ⟨0, 100⟩ with
        last_request_interval := (some ⟨0, 10⟩, none)
        tile_cache := ([TileID.mk ⟨0, 10⟩], []) } : TileManager).request_tiles
        ⟨5, 15⟩ false = .todoBranch :=
  ⟨by decide,
    dynamic_request_tiles_todo _ ⟨5, 15⟩ false (TileID.mk ⟨0, 10⟩) []
      (by decide) (by decide) (by decide) (by decide) (by decide) (by decide)
      (by decide)⟩

/-- Witness for C1 (amended): a fresh dynamic manager returns the single
clamped tile, and with a `[0,90]` tile cached a `[0,80]` request within the
drift bound returns the cached tile list unchanged. -/
theorem dynamic_request_tiles_witness :
    (TileManager.new (TileSet.mk []) ⟨0, 100⟩).request_tiles ⟨0, 90⟩ false =
      .ok [TileID.mk ⟨0, 90⟩]
        { TileManager.new (TileSet.mk []) ⟨0, 100⟩ with
          last_request_interval := (some ⟨0, 90⟩, none)
          tile_cache := ([TileID.mk ⟨0, 90⟩], []) } ∧
    ({ TileManager.new (TileSet.mk []) ⟨0, 100⟩ with
        last_request_interval := (some ⟨0, 90⟩, none)
        tile_cache := ([TileID.mk ⟨0, 90⟩], []) } : TileManager).request_tiles
        ⟨0, 80⟩ false =
      .ok [TileID.mk ⟨0, 90⟩]
        { TileManager.new (TileSet.mk []) ⟨0, 100⟩ with
          last_request_interval := (some ⟨0, 80⟩, none)
          tile_cache := ([TileID.mk ⟨0, 90⟩], []) } := by
  constructor
  · have h := (dynamic_request_tiles (TileManager.new (TileSet.mk []) ⟨0, 100⟩)
      ⟨0, 90⟩ false (by decide) (by decide) (by decide)).1 (by decide)
    rw [h]
    decide
  · have h := (dynamic_request_tiles
      ({ TileManager.new (TileSet.mk []) ⟨0, 100⟩ with
          last_request_interval := (some ⟨0, 90⟩, none)
          tile_cache := ([TileID.mk ⟨0, 90⟩], []) } : TileManager)
      ⟨0, 80⟩ false (by decide) (by decide) (by decide)).2
      (TileID.mk ⟨0, 90⟩) [] (by decide) (by decide) (by decide)
    rw [h]
    decide

/-- Every successful `request_tiles` call leaves the per-`full` memo equal
to the clamped request interval and the per-`full` cache equal to the
returned list, with the tile set and total interval untouched. -/
theorem request_tiles_ok_post (tm : TileManager) (view_interval : Interval)
    (full : Bool) (l : List TileID) (tm' : TileManager)
    (h : tm.request_tiles view_interval full = .ok l tm') :
    tm'.interval = tm.interval ∧ tm'.tile_set = tm.tile_set ∧
    select full tm'.last_request_interval.2 tm'.last_request_interval.1 =
      some (view_interval.intersection tm.interval) ∧
    select full tm'.tile_cache.2 tm'.tile_cache.1 = l := by
  simp only [TileManager.request_tiles] at h
  split_ifs at h with h1 h2 h3
  · simp only [TMOutcome.ok.injEq] at h
    obtain ⟨hl, htm⟩ := h
    subst htm
    exact ⟨rfl, rfl, h1, hl⟩
  · simp only [TileManager.fillOutcome, TMOutcome.ok.injEq] at h
    obtain ⟨hl, htm⟩ := h
    subst htm
    exact ⟨rfl, rfl, by rw [select_setSlot], by rw [select_setSlot]; exact hl⟩
  · cases hc : select full tm.tile_cache.2 tm.tile_cache.1 with
    | nil =>
      rw [hc] at h
      simp only [TileManager.dynamicBranch, TileManager.fillOutcome,
        TMOutcome.ok.injEq] at h
      obtain ⟨hl, htm⟩ := h
      subst htm
      exact ⟨rfl, rfl, by rw [select_setSlot], by rw [select_setSlot]; exact hl⟩
    | cons t0 rest =>
      rw [hc] at h
      simp only [TileManager.dynamicBranch] at h
      split_ifs at h with hr hcont hov
      · simp only [TMOutcome.ok.injEq] at h
        obtain ⟨hl, htm⟩ := h
        subst htm
        refine ⟨rfl, rfl, by rw [select_setSlot], ?_⟩
        rw [show ({ tm with
            last_request_interval :=
              setSlot full tm.last_request_interval
                (some (view_interval.intersection tm.interval)) } : TileManager).tile_cache
          = tm.tile_cache from rfl]
        rw [hc]
        exact hl
      · simp only [TileManager.fillOutcome, TMOutcome.ok.injEq] at h
        obtain ⟨hl, htm⟩ := h
        subst htm
        exact ⟨rfl, rfl, by rw [select_setSlot], by rw [select_setSlot]; exact hl⟩
      · simp only [TileManager.fillOutcome, TMOutcome.ok.injEq] at h
        obtain ⟨hl, htm⟩ := h
        subst htm
        exact ⟨rfl, rfl, by rw [select_setSlot], by rw [select_setSlot]; exact hl⟩
  · simp only [TileManager.staticBranch] at h
    cases hch : chooseLevel tm.tile_set.tiles
        (view_interval.intersection tm.interval).duration_ns full with
    | none => rw [hch] at h; exact absurd h (by simp)
    | some lvl =>
      rw [hch] at h
      simp only [TileManager.fillOutcome, TMOutcome.ok.injEq] at h
      obtain ⟨hl, htm⟩ := h
      subst htm
      exact ⟨rfl, rfl, by rw [select_setSlot], by rw [select_setSlot]; exact hl⟩

/-- C6: two consecutive `request_tiles` calls with equal `(view_interval,
full)` arguments return equal tile lists — any successful call is
reproduced verbatim (same list, same state) by an immediately repeated
call. -/
theorem request_tiles_stable (tm : TileManager) (view_interval : Interval)
    (full : Bool) (l : List TileID) (tm' : TileManager)
    (h : tm.request_tiles view_interval full = .ok l tm') :
    tm'.request_tiles view_interval full = .ok l tm' := by
  obtain ⟨hint, hts, hlast, hcache⟩ :=
    request_tiles_ok_post tm view_interval full l tm' h
  simp only [TileManager.request_tiles, hint]
  rw [if_pos hlast, hcache]

/-- Witness for C6: repeating the dynamic cover request of spec scenario 2
returns the same single tile and the same state. -/
theorem request_tiles_stable_witness :
    ({ tile_set := TileSet.mk [], interval := ⟨0, 10⟩
       last_request_interval := (some ⟨0, 10⟩, none)
       tile_cache := ([TileID.mk ⟨0, 10⟩], []) } : TileManager).request_tiles
      ⟨0, 10⟩ false =
    .ok [TileID.mk ⟨0, 10⟩]
      { tile_set := TileSet.mk [], interval := ⟨0, 10⟩
        last_request_interval := (some ⟨0, 10⟩, none)
        tile_cache := ([TileID.mk ⟨0, 10⟩], []) } :=
  request_tiles_stable (TileManager.new (TileSet.mk []) ⟨0, 10⟩) ⟨0, 10⟩ false
    [TileID.mk ⟨0, 10⟩]
    { tile_set := TileSet.mk [], interval := ⟨0, 10⟩
      last_request_interval := (some ⟨0, 10⟩, none)
      tile_cache := ([TileID.mk ⟨0, 10⟩], []) }
    (by decide)

/-! ## Static-pyramid tile selection -/

theorem static_inv_new (ts : TileSet) (interval : Interval) :
    StaticInv (TileManager.new ts interval) := by
  intro full
  constructor
  · intro _; cases full <;> rfl
  · intro r hr; cases full <;> simp [TileManager.new, select] at hr

theorem select_setSlot_ne {α : Type} (full full' : Bool) (p : α × α) (v : α)
    (hne : full' ≠ full) :
    select full' (setSlot full p v).2 (setSlot full p v).1 = select full' p.2 p.1 := by
  cases full <;> cases full' <;> simp_all [select, setSlot]

theorem static_inv_fill (tm : TileManager) (full : Bool) (values : List TileID)
    (key : Interval) (hinv : StaticInv tm)
    (hval : staticTiles tm.tile_set key full = some values) :
    StaticInv
      { tm with
        last_request_interval := setSlot full tm.last_request_interval (some key)
        tile_cache := setSlot full tm.tile_cache values } := by
  intro full'
  by_cases hf : full' = full
  · subst hf
    constructor
    · intro hnone
      rw [select_setSlot] at hnone
      cases hnone
    · intro r hr
      rw [select_setSlot] at hr
      obtain rfl : key = r := by injection hr
      rw [select_setSlot]
      exact hval
  · constructor
    · intro hnone
      rw [select_setSlot_ne full full' _ _ hf] at hnone
      rw [select_setSlot_ne full full' _ _ hf]
      exact (hinv full').1 hnone
    · intro r hr
      rw [select_setSlot_ne full full' _ _ hf] at hr
      rw [select_setSlot_ne full full' _ _ hf]
      exact (hinv full').2 r hr

theorem minByRatioAux_spec (request_duration : Int) :
    ∀ (rest : List (List TileID)) (best : List TileID),
      best ≠ [] → (∀ l ∈ rest, l ≠ []) →
      ∃ lvl, minByRatioAux request_duration best rest = some lvl ∧
        (lvl = best ∨ lvl ∈ rest) := by
  intro rest
  induction rest with
  | nil => intro best _ _; exact ⟨best, rfl, Or.inl rfl⟩
  | cons l t ih =>
    intro best hbest hall
    have hl : l ≠ [] := hall l (by simp)
    obtain ⟨b0, hb0⟩ : ∃ b0, best.head? = some b0 := by
      cases best with
      | nil => exact absurd rfl hbest
      | cons x xs => exact ⟨x, rfl⟩
    obtain ⟨l0, hl0⟩ : ∃ l0, l.head? = some l0 := by
      cases l with
      | nil => exact absurd rfl hl
      | cons x xs => exact ⟨x, rfl⟩
    have hcand : (if ratioQ b0.val.duration_ns request_duration ≤
        ratioQ l0.val.duration_ns request_duration then best else l) ≠ [] := by
      split_ifs <;> assumption
    obtain ⟨lvl, heq, hmem⟩ := ih _ hcand (fun x hx => hall x (by simp [hx]))
    refine ⟨lvl, ?_, ?_⟩
    · simp only [minByRatioAux, hb0, hl0]
      exact heq
    · rcases hmem with h | h
      · subst h
        split_ifs at hcand ⊢ with hr
        · exact Or.inl rfl
        · exact Or.inr (by simp)
      · exact Or.inr (by simp [h])

theorem chooseLevel_spec (tiles : List (List TileID)) (request_duration : Int)
    (full : Bool) (h1 : tiles ≠ []) (h2 : ∀ lvl ∈ tiles, lvl ≠ []) :
    ∃ lvl, chooseLevel tiles request_duration full = some lvl ∧ lvl ∈ tiles ∧
      (full = true → tiles.getLast? = some lvl) := by
  cases full with
  | true =>
    refine ⟨tiles.getLast h1, ?_, List.getLast_mem h1, fun _ => ?_⟩ <;>
      simp [chooseLevel, List.getLast?_eq_getLast_of_ne_nil h1]
  | false =>
    cases tiles with
    | nil => exact absurd rfl h1
    | cons hd t =>
      obtain ⟨lvl, heq, hmem⟩ := minByRatioAux_spec request_duration t hd
        (h2 hd (by simp)) (fun x hx => h2 x (by simp [hx]))
      refine ⟨lvl, by simpa [chooseLevel] using heq, ?_, by simp⟩
      rcases hmem with h | h
      · simp [h]
      · simp [h]

/-- C5: on a static (nonempty) tile pyramid with nonempty levels, for every
request with positive clamped duration, a manager whose memo is consistent
(`StaticInv`, true initially and preserved by every call) returns exactly
the tiles of the chosen level that overlap the clamped request — every
returned tile overlaps it and every overlapping tile of that level is
returned — and with `full = true` the chosen level is the last
(highest-resolution) level. -/
theorem static_request_tiles_exact (tm : TileManager) (view_interval : Interval)
    (full : Bool)
    (htiles : tm.tile_set.tiles ≠ [])
    (hlevels : ∀ lvl ∈ tm.tile_set.tiles, lvl ≠ [])
    (hinv : StaticInv tm)
    (hdur : 0 < (view_interval.intersection tm.interval).duration_ns) :
    ∃ lvl ∈ tm.tile_set.tiles, ∃ tm' : TileManager,
      tm.request_tiles view_interval full =
        .ok (lvl.filter (fun tile =>
          decide ((view_interval.intersection tm.interval).overlaps tile.val))) tm' ∧
      (∀ t : TileID,
        t ∈ lvl.filter (fun tile =>
          decide ((view_interval.intersection tm.interval).overlaps tile.val)) ↔
        t ∈ lvl ∧ (view_interval.intersection tm.interval).overlaps t.val) ∧
      (full = true → tm.tile_set.tiles.getLast? = some lvl) := by
  obtain ⟨lvl, hch, hmem, hlast⟩ :=
    chooseLevel_spec tm.tile_set.tiles
      (view_interval.intersection tm.interval).duration_ns full htiles hlevels
  have hmemiff : ∀ t : TileID,
      t ∈ lvl.filter (fun tile =>
        decide ((view_interval.intersection tm.interval).overlaps tile.val)) ↔
      t ∈ lvl ∧ (view_interval.intersection tm.interval).overlaps t.val := by
    intro t
    simp [List.mem_filter]
  by_cases hmemo : select full tm.last_request_interval.2 tm.last_request_interval.1 =
      some (view_interval.intersection tm.interval)
  · have hst := (hinv full).2 _ hmemo
    rw [staticTiles, if_neg (by omega), hch] at hst
    simp only [Option.map_some', Option.some.injEq] at hst
    refine ⟨lvl, hmem, tm, ?_, hmemiff, hlast⟩
    simp only [TileManager.request_tiles]
    rw [if_pos hmemo, ← hst]
  · refine ⟨lvl, hmem,
      { tm with
        last_request_interval := setSlot full tm.last_request_interval
          (some (view_interval.intersection tm.interval))
        tile_cache := setSlot full tm.tile_cache
          (lvl.filter (fun tile =>
            decide ((view_interval.intersection tm.interval).overlaps tile.val))) },
      ?_, hmemiff, hlast⟩
    simp only [TileManager.request_tiles]
    rw [if_neg hmemo, if_neg (by omega),
      if_neg (by simpa [List.isEmpty_iff] using htiles)]
    simp only [TileManager.staticBranch]
    rw [hch]
    rfl

/-- `StaticInv` is preserved by every successful request on a static tile
set, so every manager reachable from `TileManager.new` satisfies it. -/
theorem static_inv_step (tm : TileManager) (view_interval : Interval) (full : Bool)
    (l : List TileID) (tm' : TileManager)
    (htiles : tm.tile_set.tiles ≠ [])
    (hinv : StaticInv tm)
    (h : tm.request_tiles view_interval full = .ok l tm') :
    StaticInv tm' := by
  simp only [TileManager.request_tiles] at h
  split_ifs at h with h1 h2 h3
  · simp only [TMOutcome.ok.injEq] at h
    obtain ⟨_, htm⟩ := h
    subst htm
    exact hinv
  · simp only [TileManager.fillOutcome, TMOutcome.ok.injEq] at h
    obtain ⟨hl, htm⟩ := h
    subst htm
    exact static_inv_fill tm full [] _ hinv (by rw [staticTiles, if_pos h2])
  · exact absurd h3 (by simpa [List.isEmpty_iff] using htiles)
  · simp only [TileManager.staticBranch] at h
    cases hch : chooseLevel tm.tile_set.tiles
        (view_interval.intersection tm.interval).duration_ns full with
    | none => rw [hch] at h; exact absurd h (by simp)
    | some lvl =>
      rw [hch] at h
      simp only [TileManager.fillOutcome, TMOutcome.ok.injEq] at h
      obtain ⟨hl, htm⟩ := h
      subst htm
      exact static_inv_fill tm full _ _ hinv
        (by rw [staticTiles, if_neg h2, hch]; rfl)

/-- Witness for C5 at spec scenario 3: two-level pyramid over `[0,100]`,
request `[10,90]` with `full = true` — the chosen level is the last
(finest) one and exactly its overlapping tiles are returned. -/
theorem static_request_tiles_exact_witness :
    ∃ lvl ∈ c5tm.tile_set.tiles, ∃ tm' : TileManager,
      c5tm.request_tiles ⟨10, 90⟩ true =
        .ok (lvl.filter (fun tile =>
          decide ((Interval.intersection ⟨10, 90⟩ c5tm.interval).overlaps tile.val))) tm' ∧
      (∀ t : TileID,
        t ∈ lvl.filter (fun tile =>
          decide ((Interval.intersection ⟨10, 90⟩ c5tm.interval).overlaps tile.val)) ↔
        t ∈ lvl ∧ (Interval.intersection ⟨10, 90⟩ c5tm.interval).overlaps t.val) ∧
      (true = true → c5tm.tile_set.tiles.getLast? = some lvl) :=
  static_request_tiles_exact c5tm ⟨10, 90⟩ true (by decide) (by decide)
    (static_inv_new c5ts ⟨0, 100⟩) (by decide)

end ProfViewer
